import Mathlib

/-!
Verification of the bar retrieval and aggregation engine of
`rqalpha/data/base_data_source.py` (class `BaseDataSource`).

The Python code is shallowly embedded: bar records are structures of
integers, numpy record arrays are lists of records, fallible code runs in
`Except PyError`, and the in-place mutation of the caller's `fields` list
performed by `_resample_k_bars` is made explicit by returning the
post-call value of the `fields` argument alongside the result.
-/

/-- Python exceptions raised (directly or by library calls) on the paths
modelled here. -/
inductive PyError where
  | NotImplementedError
  | TypeError
  | KeyError
  deriving DecidableEq, Repr

deriving instance DecidableEq for Except

/-- A calendar date, as passed to `get_bar` / `history_bars` (`dt`). -/
structure Date where
  year : Nat
  month : Nat
  day : Nat
  deriving DecidableEq, Repr

/-- One daily bar record.  The schema is restricted to the core fields of
the spec's data model (`datetime, open, high, low, close, volume,
total_turnover`); prices and quantities are integers in the embedding,
which is faithful for every aggregation the code performs (first, last,
max, min, sum). -/
structure BarRecord where
  datetime : Int
  «open» : Int
  high : Int
  low : Int
  close : Int
  volume : Int
  total_turnover : Int
  deriving DecidableEq, Repr

/-- The `fields` argument of `history_bars`: Python `None` (all fields), a
single string, or a list of strings. -/
inductive Fields where
  | all
  | str (s : String)
  | list (l : List String)
  deriving DecidableEq, Repr

/-- A record of a (possibly projected or resampled) record array: an
ordered association of field names to values, as produced by
`DataFrame.to_records` / numpy multi-field indexing. -/
def Row : Type := List (String × Int)

instance : DecidableEq Row := inferInstanceAs (DecidableEq (List (String × Int)))

/-- Modelled from the spec: `convert_date_to_int` of
`rqalpha/utils/datetime_func.py` is not under `src/`; the spec describes
the date key as a `YYYYMMDD`-style integer encoding, ascending with the
calendar date. -/
def convert_date_to_int (d : Date) : Int :=
  ((d.year * 10000 + d.month * 100 + d.day : Nat) : Int)

/-- Modelled from the spec: inverse decoding of the `YYYYMMDD`-style
integer key back to a calendar date (`convert_int_to_datetime` of
`rqalpha/utils/datetime_func.py`, not under `src/`). -/
def convert_int_to_date (n : Int) : Date :=
  let m := n.toNat
  ⟨m / 10000, (m / 100) % 100, m % 100⟩

/-- Gregorian leap-year test. -/
def isLeap (y : Nat) : Bool :=
  (y % 4 == 0 && y % 100 != 0) || y % 400 == 0

/-- Cumulative day counts of a non-leap year before each month
(1-indexed; position 13 is the year length). -/
def cumDays : Nat → Nat
  | 1 => 0
  | 2 => 31
  | 3 => 59
  | 4 => 90
  | 5 => 120
  | 6 => 151
  | 7 => 181
  | 8 => 212
  | 9 => 243
  | 10 => 273
  | 11 => 304
  | 12 => 334
  | 13 => 365
  | _ => 0

/-- Days of year `y` elapsed before month `m` begins. -/
def daysBeforeMonth (y m : Nat) : Nat :=
  cumDays m + (if isLeap y ∧ 3 ≤ m then 1 else 0)

/-- Number of days of month `m` in year `y`. -/
def monthLen (y m : Nat) : Nat :=
  daysBeforeMonth y (m + 1) - daysBeforeMonth y m

/-- Ordinal of the date inside its year (Jan 1 ↦ 1). -/
def dayOfYear (d : Date) : Nat :=
  daysBeforeMonth d.year d.month + d.day

/-- Total number of days in the proleptic-Gregorian years `1 .. n`. -/
def daysUpTo (n : Nat) : Nat :=
  365 * n + n / 4 - n / 100 + n / 400

/-- Rata-die day number: `rd ⟨1,1,1⟩ = 1`, which is a Monday, so a day
number `n` falls on a Friday exactly when `n % 7 = 5`. -/
def rd (d : Date) : Nat :=
  daysUpTo (d.year - 1) + dayOfYear d

/-- Day number of the first Friday on or after day number `n`. -/
def fridayOnOrAfter (n : Nat) : Nat :=
  n + (12 - n % 7) % 7

/-- Bucket index of the Saturday-to-Friday week containing day `d`
(pandas `resample("W-Fri")` bins). Two dates share a `weekKey` exactly
when they share their Friday-anchored week. -/
def weekKey (d : Date) : Nat := (rd d + 1) / 7

/-- Bucket index of the calendar month containing `d` (pandas
`resample("M")` bins). -/
def monthKey (d : Date) : Nat := 12 * d.year + d.month

/-- Calendar bucket of an integer-encoded date under a pandas resampling
rule string (`"W-Fri"` or `"M"`, the two rules the code uses). -/
def bucketKey (rule : String) (n : Int) : Nat :=
  let d := convert_int_to_date n
  if rule = "W-Fri" then weekKey d else monthKey d

/-- A well-formed calendar date. -/
def validDate (d : Date) : Bool :=
  1 ≤ d.year && 1 ≤ d.month && d.month ≤ 12 && 1 ≤ d.day && d.day ≤ monthLen d.year d.month

/-- An integer that is the encoding of a well-formed calendar date. -/
def validEnc (n : Int) : Bool :=
  validDate (convert_int_to_date n) && convert_date_to_int (convert_int_to_date n) == n

/-- `numpy.searchsorted(a, v)` (default `side='left'`) on a sorted array:
the first position whose element is not `< v`. -/
def searchsorted_left (xs : List Int) (v : Int) : Nat :=
  (xs.takeWhile (fun x => decide (x < v))).length

/-- `numpy.searchsorted(a, v, side='right')` on a sorted array: the first
position whose element is not `≤ v`. -/
def searchsorted_right (xs : List Int) (v : Int) : Nat :=
  (xs.takeWhile (fun x => decide (x ≤ v))).length

/-- Field access on a full daily bar record by field name. -/
def BarRecord.get (r : BarRecord) (f : String) : Int :=
  if f = "datetime" then r.datetime
  else if f = "open" then r.«open»
  else if f = "high" then r.high
  else if f = "low" then r.low
  else if f = "close" then r.close
  else if f = "volume" then r.volume
  else if f = "total_turnover" then r.total_turnover
  else 0

/-- The record schema (`bars.dtype.names`) of the daily bar stores, in the
order the spec's data model lists the core fields. -/
def schema : List String :=
  ["datetime", "open", "high", "low", "close", "volume", "total_turnover"]

/-- View a full daily bar record as a row of the full schema. -/
def BarRecord.toRow (r : BarRecord) : Row :=
  schema.map (fun f => (f, r.get f))

/-- Value of a named field of a row (first occurrence). -/
def rowGet (row : Row) (f : String) : Int :=
  match List.find? (fun p => p.1 == f) row with
  | some p => p.2
  | none => 0

/-- numpy multi-field projection `row[fields]`. -/
def rowProj (row : Row) (fs : List String) : Row :=
  fs.map (fun f => (f, rowGet row f))

/-- Sequencing of a fallible computation over a list (the semantics of
the Python loops building `fds`-indexed columns). -/
def mapME (f : α → Except PyError β) : List α → Except PyError (List β)
  | [] => .ok []
  | x :: xs => do
    let y ← f x
    let ys ← mapME f xs
    .ok (y :: ys)

/-- The per-field aggregation rules of `_resample_k_bars`' `handler`
dictionary. -/
inductive Agg where
  | first
  | last
  | max
  | min
  | sum
  deriving DecidableEq, Repr

/-- The `handler` dictionary of `_resample_k_bars`. -/
def handler : List (String × Agg) :=
  [("datetime", .last), ("open", .first), ("high", .max), ("low", .min),
   ("close", .last), ("volume", .sum), ("total_turnover", .sum)]

/-- Apply one aggregation rule to the column of values of a bucket. -/
def applyAgg : Agg → List Int → Int
  | .first, vs => vs.headD 0
  | .last, vs => vs.getLastD 0
  | .max, [] => 0
  | .max, v :: vs => vs.foldl Max.max v
  | .min, [] => 0
  | .min, v :: vs => vs.foldl Min.min v
  | .sum, vs => vs.foldl (· + ·) 0

/-- `getattr(agg[field], handler[field])()` for one bucket: look the field
up in `handler` (a missing key is a Python `KeyError`) and aggregate the
bucket's column for that field. -/
def aggField (grp : List BarRecord) (f : String) : Except PyError Int :=
  match List.find? (fun p => p.1 == f) handler with
  | none => .error .KeyError
  | some p => .ok (applyAgg p.2 (grp.map (fun r => r.get f)))

/-- The ascending list of non-empty calendar bins of a pandas
`resample(rule)` over the decoded datetime index (empty bins carry only
NaNs and are removed by the subsequent `dropna`). -/
def resampleKeys (bars : List BarRecord) (rule : String) : List Nat :=
  ((bars.map (fun r => bucketKey rule r.datetime)).dedup).insertionSort (· ≤ ·)

/-- The group of bars falling in calendar bin `k`, in series order. -/
def bucketOf (bars : List BarRecord) (rule : String) (k : Nat) : List BarRecord :=
  bars.filter (fun r => bucketKey rule r.datetime == k)

/-- The aggregation loop of `_resample_k_bars`: one output row per
non-empty bin, holding in `fds` order the aggregated column values of
its group. -/
def resampleAgg (bars : List BarRecord) (fds : List String) (rule : String) :
    Except PyError (List Row) :=
  mapME (fun k =>
      mapME (fun f => do
          let v ← aggField (bucketOf bars rule k) f
          .ok (f, v)) fds)
    (resampleKeys bars rule)

/-- `BaseDataSource._resample_k_bars(bars, fields, frequency)`.

`fds = fields` aliases the caller's list when `fields` is a list, so the
`fds.append("datetime")` mutates it; the returned `Fields` is the
post-call value of the caller's argument.  `fields is None` makes
`"datetime" not in fds` a `TypeError`. -/
def _resample_k_bars (bars : List BarRecord) (fields : Fields) (rule : String) :
    Except PyError (List Row × Fields) :=
  match fields with
  | .all => .error .TypeError
  | .str s => do
    let rows ← resampleAgg bars (if s = "datetime" then [s] else [s, "datetime"]) rule
    .ok (rows, Fields.str s)
  | .list l =>
    let fds := if "datetime" ∈ l then l else l ++ ["datetime"]
    do
    let rows ← resampleAgg bars fds rule
    .ok (rows, Fields.list fds)

/-- An instrument, with the attributes the engine reads. -/
structure Instrument where
  order_book_id : String
  type : String

/-- `BaseDataSource.INSTRUMENT_TYPE_MAP`. -/
def INSTRUMENT_TYPE_MAP : List (String × Nat) :=
  [("CS", 0), ("INDX", 1), ("Future", 2), ("ETF", 3), ("LOF", 3),
   ("FenjiA", 3), ("FenjiB", 3), ("FenjiMu", 3)]

/-- The state of a `BaseDataSource`: the four day-bar stores, as a map
from table index and order book id to the instrument's full ascending
series, or `none` when the store has no data for it. -/
structure BaseDataSource where
  day_bars : Nat → String → Option (List BarRecord)

/-- `BaseDataSource._index_of`: a `dict` lookup, so an unmapped
instrument type is a `KeyError`. -/
def _index_of (instrument : Instrument) : Except PyError Nat :=
  match List.find? (fun p => p.1 == instrument.type) INSTRUMENT_TYPE_MAP with
  | none => .error .KeyError
  | some p => .ok p.2

/-- `BaseDataSource._all_day_bars_of` (the `lru_cache` memoization has no
observable effect on the value and is dropped by the embedding). -/
def _all_day_bars_of (ds : BaseDataSource) (instrument : Instrument) :
    Except PyError (Option (List BarRecord)) := do
  let i ← _index_of instrument
  .ok (ds.day_bars i instrument.order_book_id)

/-- `BaseDataSource._filtered_day_bars`: the full series restricted to
records with positive volume; `None` propagates. -/
def _filtered_day_bars (ds : BaseDataSource) (instrument : Instrument) :
    Except PyError (Option (List BarRecord)) := do
  let bars? ← _all_day_bars_of ds instrument
  match bars? with
  | none => .ok none
  | some bars => .ok (some (bars.filter (fun r => decide (0 < r.volume))))

/-- `BaseDataSource.get_bar(instrument, dt, frequency)`. -/
def get_bar (ds : BaseDataSource) (instrument : Instrument) (dt : Date)
    (frequency : String) : Except PyError (Option BarRecord) :=
  if frequency ≠ "1d" then
    .error .NotImplementedError
  else do
  let bars? ← _all_day_bars_of ds instrument
  match bars? with
  | none => .ok none
  | some bars =>
    let dti := convert_date_to_int dt
    let pos := searchsorted_left (bars.map (fun r => r.datetime)) dti
    if h : pos < bars.length then
      if (bars.get ⟨pos, h⟩).datetime ≠ dti then .ok none
      else .ok (some (bars.get ⟨pos, h⟩))
    else .ok none

/-- `BaseDataSource._are_fields_valid(fields, valid_fields)`. -/
def _are_fields_valid (fields : Fields) (valid_fields : List String) : Bool :=
  match fields with
  | .all => true
  | .str s => decide (s ∈ valid_fields)
  | .list l => l.all (fun f => decide (f ∈ valid_fields))

/-- Lines 190–196 of `history_bars`: right-inclusive boundary search for
the as-of date key and extraction of the `bar_count`-bounded window
`bars[left:i]`. -/
def windowSlice (rows : List Row) (bar_count : Nat) (dti : Int) : List Row :=
  let i := searchsorted_right (rows.map (fun row => rowGet row "datetime")) dti
  let left := if bar_count ≤ i then i - bar_count else 0
  (rows.drop left).take (i - left)

/-- Final projection of `history_bars` (lines 193–196): `bars[left:i]`
when `fields` is `None`, `bars[left:i][fields]` otherwise, indexed by the
current value of the `fields` variable. -/
def projectRows (w : List Row) : Fields → List Row
  | .all => w
  | .str s => w.map (fun row => rowProj row [s])
  | .list l => w.map (fun row => rowProj row l)

/-- Lines 182–196 of `history_bars`, from field validation on, applied to
the selected (present) series: validate fields, resample for `"W"`/`"M"`,
locate the window, and project through the current value of `fields`. -/
def barsPipeline (bars : List BarRecord) (bar_count : Nat) (frequency : String)
    (fields : Fields) (dt : Date) : Except PyError (Option (List Row) × Fields) :=
  if ¬ _are_fields_valid fields schema then
    .ok (none, fields)
  else do
  let (rows, fieldsAfter) ←
    if frequency = "W" then _resample_k_bars bars fields "W-Fri"
    else if frequency = "M" then _resample_k_bars bars fields "M"
    else .ok (bars.map BarRecord.toRow, fields)
  .ok (some (projectRows (windowSlice rows bar_count (convert_date_to_int dt)) fieldsAfter),
    fieldsAfter)

/-- `BaseDataSource.history_bars(instrument, bar_count, frequency, fields,
dt, skip_suspended)`.  The second component of a successful result is the
post-call value of the caller's `fields` argument (observable because
`_resample_k_bars` appends to it in place when it is a list). -/
def history_bars (ds : BaseDataSource) (instrument : Instrument) (bar_count : Nat)
    (frequency : String) (fields : Fields) (dt : Date) (skip_suspended : Bool) :
    Except PyError (Option (List Row) × Fields) :=
  if frequency ∉ (["1d", "W", "M"] : List String) then
    .error .NotImplementedError
  else do
  let bars? ←
    if skip_suspended ∧ instrument.type = "CS" then _filtered_day_bars ds instrument
    else _all_day_bars_of ds instrument
  match bars? with
  | none => return (none, fields)
  | some bars => barsPipeline bars bar_count frequency fields dt

/-- `daysBeforeMonth` with the leap flag abstracted, for finite-domain
month reasoning. -/
def dbmB (b : Bool) (m : Nat) : Nat :=
  cumDays m + (if b = true ∧ 3 ≤ m then 1 else 0)

/-- `monthLen` with the leap flag abstracted. -/
def monthLenB (b : Bool) (m : Nat) : Nat := dbmB b (m + 1) - dbmB b m

/-- The `fds` list after the `"datetime"` normalization of
`_resample_k_bars`. -/
def normFds (l : List String) : List String :=
  if "datetime" ∈ l then l else l ++ ["datetime"]

/-- The value `_resample_k_bars` computes for field `f` of one group. -/
def aggVal (grp : List BarRecord) (f : String) : Int :=
  match List.find? (fun p => p.1 == f) handler with
  | some p => applyAgg p.2 (grp.map (fun r => r.get f))
  | none => 0

/-- One output row of the aggregation. -/
def aggRow (grp : List BarRecord) (fds : List String) : Row :=
  fds.map (fun f => (f, aggVal grp f))

/-- A dummy record used only as a `getLastD`/`headD` default on groups
proven non-empty. -/
def dummyBar : BarRecord := ⟨0, 0, 0, 0, 0, 0, 0⟩

def mkBar (dt o h l c v : Int) : BarRecord := ⟨dt, o, h, l, c, v, 10 * v⟩

/-- Four bars of the Mon–Thu trading week 2018-01-01 … 2018-01-04 (no
Friday trade), with closes 10, 12, 9, 15. -/
def exBars : List BarRecord :=
  [mkBar 20180101 10 11 8 10 100,
   mkBar 20180102 11 12 10 12 200,
   mkBar 20180103 12 13 9 9 300,
   mkBar 20180104 9 15 9 15 400]

def sampleDS : BaseDataSource :=
  ⟨fun i id => if i = 0 ∧ id = "000001.XSHE" then some exBars else none⟩

def sampleInst : Instrument := ⟨"000001.XSHE", "CS"⟩

/-- An index instrument unknown to the sample stores. -/
def sampleIndex : Instrument := ⟨"000300.XSHG", "INDX"⟩

/-- The list of per-record field-name lists of a successful non-Absent
`history_bars` result. -/
def rowsFieldLists (r : Except PyError (Option (List Row) × Fields)) :
    Option (List (List String)) :=
  match r with
  | .ok (some rows, _) => some (rows.map (fun row => row.map Prod.fst))
  | _ => none

/-- The spec's per-field aggregation table, stated for one output row
against its contributing bucket `B` (in series order): `datetime` and
`close` come from the last bar, `open` from the first, `high` is the
maximum, `low` the minimum, `volume` and `total_turnover` the sums. -/
def bucketAggOk (B : List BarRecord) (fds : List String) (row : Row) : Prop :=
  ("datetime" ∈ fds → rowGet row "datetime" = (B.getLastD dummyBar).datetime) ∧
  ("open" ∈ fds → rowGet row "open" = (B.headD dummyBar).«open») ∧
  ("close" ∈ fds → rowGet row "close" = (B.getLastD dummyBar).close) ∧
  ("high" ∈ fds → rowGet row "high" ∈ B.map (fun r => r.high) ∧
    ∀ v ∈ B.map (fun r => r.high), v ≤ rowGet row "high") ∧
  ("low" ∈ fds → rowGet row "low" ∈ B.map (fun r => r.low) ∧
    ∀ v ∈ B.map (fun r => r.low), rowGet row "low" ≤ v) ∧
  ("volume" ∈ fds → rowGet row "volume" = (B.map (fun r => r.volume)).sum) ∧
  ("total_turnover" ∈ fds →
    rowGet row "total_turnover" = (B.map (fun r => r.total_turnover)).sum)

/-- The names an explicit field request carries (`none` for Python
`None`). -/
def fieldNames : Fields → Option (List String)
  | .all => none
  | .str s => some [s]
  | .list l => some l

/-! ### Lemmas and claim theorems -/

theorem takeWhile_eq_take_length (p : α → Bool) (l : List α) :
    l.takeWhile p = l.take (l.takeWhile p).length := by
  induction l with
  | nil => rfl
  | cons x xs ih =>
    by_cases h : p x
    · rw [List.takeWhile_cons_of_pos h, List.length_cons, List.take_succ_cons]
      exact congrArg (x :: ·) ih
    · simp [List.takeWhile_cons_of_neg h]

theorem length_takeWhile_le' (p : α → Bool) (l : List α) :
    (l.takeWhile p).length ≤ l.length := by
  induction l with
  | nil => simp
  | cons x xs ih =>
    by_cases h : p x
    · simpa [List.takeWhile_cons_of_pos h] using ih
    · simp [List.takeWhile_cons_of_neg h]

theorem mem_takeWhile_pred {p : α → Bool} {l : List α} {x : α}
    (h : x ∈ l.takeWhile p) : p x = true := by
  induction l with
  | nil => simp at h
  | cons y ys ih =>
    by_cases hy : p y
    · rw [List.takeWhile_cons_of_pos hy] at h
      rcases h with _ | h
      · exact hy
      · exact ih (by assumption)
    · simp [List.takeWhile_cons_of_neg hy] at h

theorem mapME_ok_of_forall {f : α → Except PyError β} {g : α → β} {l : List α}
    (h : ∀ x ∈ l, f x = .ok (g x)) : mapME f l = .ok (l.map g) := by
  induction l with
  | nil => rfl
  | cons x xs ih =>
    have hx := h x (by simp)
    have hxs := ih (fun y hy => h y (by simp [hy]))
    rw [mapME, hx, hxs]
    rfl

theorem rowGet_mk {fs : List String} {g : String → Int} {f : String}
    (h : f ∈ fs) : rowGet (fs.map (fun f0 => (f0, g f0))) f = g f := by
  induction fs with
  | nil => simp at h
  | cons a as ih =>
    by_cases ha : a = f
    · subst ha
      simp [rowGet, List.find?]
    · rcases List.mem_cons.mp h with h1 | h1
      · exact absurd h1.symm ha
      · have hne : (a == f) = false := by
          simp [ha]
        simpa [rowGet, List.find?, hne] using ih h1

theorem map_fst_mk (fs : List String) (g : String → Int) :
    (fs.map (fun f0 => (f0, g f0))).map Prod.fst = fs := by
  rw [List.map_map]
  exact List.map_id' fs

theorem rowGet_toRow_datetime (r : BarRecord) :
    rowGet r.toRow "datetime" = r.datetime := rfl

theorem getLastD_map (f : α → β) (l : List α) (d : β) (d0 : α) (hne : l ≠ []) :
    (l.map f).getLastD d = f (l.getLastD d0) := by
  induction l generalizing d d0 with
  | nil => exact absurd rfl hne
  | cons x xs ih =>
    rcases xs with _ | ⟨y, ys⟩
    · rfl
    · simpa [List.getLastD_cons] using ih (f x) x (by simp)

theorem headD_map (f : α → β) (l : List α) (d : β) (d0 : α) (hne : l ≠ []) :
    (l.map f).headD d = f (l.headD d0) := by
  cases l with
  | nil => exact absurd rfl hne
  | cons x xs => rfl

theorem foldl_max_spec (v : Int) (vs : List Int) :
    (vs.foldl Max.max v = v ∨ vs.foldl Max.max v ∈ vs) ∧
      v ≤ vs.foldl Max.max v ∧ ∀ x ∈ vs, x ≤ vs.foldl Max.max v := by
  induction vs generalizing v with
  | nil => simp
  | cons w ws ih =>
    obtain ⟨hmem, hle, hub⟩ := ih (Max.max v w)
    have hfold : (w :: ws).foldl Max.max v = ws.foldl Max.max (Max.max v w) := rfl
    refine ⟨?_, ?_, ?_⟩
    · rw [hfold]
      rcases hmem with h | h
      · rcases le_total w v with hwv | hvw
        · left
          rw [h, max_eq_left hwv]
        · right
          rw [h, max_eq_right hvw]
          exact List.mem_cons_self w ws
      · right
        exact List.mem_cons_of_mem w h
    · rw [hfold]
      exact le_trans (le_max_left v w) hle
    · intro x hx
      rw [hfold]
      rcases List.mem_cons.mp hx with h | h
      · rw [h]
        exact le_trans (le_max_right v w) hle
      · exact hub x h

theorem foldl_min_spec (v : Int) (vs : List Int) :
    (vs.foldl Min.min v = v ∨ vs.foldl Min.min v ∈ vs) ∧
      vs.foldl Min.min v ≤ v ∧ ∀ x ∈ vs, vs.foldl Min.min v ≤ x := by
  induction vs generalizing v with
  | nil => simp
  | cons w ws ih =>
    obtain ⟨hmem, hle, hlb⟩ := ih (Min.min v w)
    have hfold : (w :: ws).foldl Min.min v = ws.foldl Min.min (Min.min v w) := rfl
    refine ⟨?_, ?_, ?_⟩
    · rw [hfold]
      rcases hmem with h | h
      · rcases le_total v w with hvw | hwv
        · left
          rw [h, min_eq_left hvw]
        · right
          rw [h, min_eq_right hwv]
          exact List.mem_cons_self w ws
      · right
        exact List.mem_cons_of_mem w h
    · rw [hfold]
      exact le_trans hle (min_le_left v w)
    · intro x hx
      rw [hfold]
      rcases List.mem_cons.mp hx with h | h
      · rw [h]
        exact le_trans hle (min_le_right v w)
      · exact hlb x h

theorem foldl_add_eq_sum (vs : List Int) (v : Int) :
    vs.foldl (· + ·) v = v + vs.sum := by
  induction vs generalizing v with
  | nil => simp
  | cons w ws ih =>
    simp [List.foldl_cons, ih (v + w), List.sum_cons, add_assoc]

theorem isLeap_iff (y : Nat) :
    isLeap y = true ↔ ((y % 4 = 0 ∧ ¬ y % 100 = 0) ∨ y % 400 = 0) := by
  simp [isLeap]

set_option maxHeartbeats 1000000 in
theorem daysUpTo_succ (n : Nat) :
    daysUpTo (n + 1) = daysUpTo n + 365 + (if isLeap (n + 1) then 1 else 0) := by
  by_cases hl : isLeap (n + 1) = true
  · rw [if_pos hl]
    have h := (isLeap_iff (n + 1)).mp hl
    unfold daysUpTo
    omega
  · rw [if_neg hl]
    have h : ¬ (((n + 1) % 4 = 0 ∧ ¬ (n + 1) % 100 = 0) ∨ (n + 1) % 400 = 0) :=
      fun hc => hl ((isLeap_iff (n + 1)).mpr hc)
    unfold daysUpTo
    omega

theorem daysUpTo_mono {n1 n2 : Nat} (h : n1 ≤ n2) : daysUpTo n1 ≤ daysUpTo n2 := by
  induction n2 with
  | zero => simp_all [daysUpTo]
  | succ k ih =>
    rcases Nat.lt_or_ge n1 (k + 1) with hlt | hge
    · have h1 := ih (Nat.lt_succ_iff.mp hlt)
      have hs := daysUpTo_succ k
      omega
    · exact le_of_eq (congrArg daysUpTo (le_antisymm h hge))

theorem dbm_eq_dbmB (y m : Nat) : daysBeforeMonth y m = dbmB (isLeap y) m := rfl

theorem monthLen_eq_monthLenB (y m : Nat) : monthLen y m = monthLenB (isLeap y) m := rfl

theorem dbmB_mono : ∀ b : Bool, ∀ m2, m2 < 14 → ∀ m1, m1 < 14 → m1 ≤ m2 →
    dbmB b m1 ≤ dbmB b m2 := by decide

theorem dbmB_13 : ∀ b : Bool, dbmB b 13 = 365 + (if b = true then 1 else 0) := by decide

theorem monthLenB_le_31 : ∀ b : Bool, ∀ m, m < 13 → 1 ≤ m → monthLenB b m ≤ 31 := by decide

theorem dbmB_add_day_le : ∀ b : Bool, ∀ m, m < 13 → ∀ dd, dd < 32 → 1 ≤ m → 1 ≤ dd →
    dd ≤ monthLenB b m → dbmB b m + dd ≤ dbmB b (m + 1) := by decide

/-- Unpack the `validDate` boolean. -/
theorem validDate_iff (d : Date) :
    validDate d = true ↔
      1 ≤ d.year ∧ 1 ≤ d.month ∧ d.month ≤ 12 ∧ 1 ≤ d.day ∧
        d.day ≤ monthLen d.year d.month := by
  simp [validDate, and_assoc]

theorem day_le_31 {d : Date} (hv : validDate d = true) : d.day ≤ 31 := by
  obtain ⟨-, hm1, hm2, -, hd2⟩ := (validDate_iff d).mp hv
  calc d.day ≤ monthLen d.year d.month := hd2
    _ = monthLenB (isLeap d.year) d.month := monthLen_eq_monthLenB _ _
    _ ≤ 31 := monthLenB_le_31 _ d.month (by omega) hm1

theorem dayOfYear_le {d : Date} (hv : validDate d = true) :
    dayOfYear d ≤ 365 + (if isLeap d.year then 1 else 0) := by
  obtain ⟨-, hm1, hm2, hd1, hd2⟩ := (validDate_iff d).mp hv
  have h31 := day_le_31 hv
  have hstep := dbmB_add_day_le (isLeap d.year) d.month (by omega) d.day (by omega) hm1 hd1
    (by rw [← monthLen_eq_monthLenB]; exact hd2)
  have hmono := dbmB_mono (isLeap d.year) 13 (by omega) (d.month + 1) (by omega) (by omega)
  have h13 := dbmB_13 (isLeap d.year)
  unfold dayOfYear
  rw [dbm_eq_dbmB]
  omega

theorem dayOfYear_pos {d : Date} (hv : validDate d = true) : 1 ≤ dayOfYear d := by
  obtain ⟨-, -, -, hd1, -⟩ := (validDate_iff d).mp hv
  unfold dayOfYear
  omega

theorem dayOfYear_mono_sameYear {d1 d2 : Date} (hv1 : validDate d1 = true)
    (hv2 : validDate d2 = true) (hy : d1.year = d2.year)
    (h : d1.month < d2.month ∨ (d1.month = d2.month ∧ d1.day ≤ d2.day)) :
    dayOfYear d1 ≤ dayOfYear d2 := by
  obtain ⟨-, hm1, hm2, hd1, hd2⟩ := (validDate_iff d1).mp hv1
  obtain ⟨-, hm1', hm2', hd1', hd2'⟩ := (validDate_iff d2).mp hv2
  have h31 := day_le_31 hv1
  unfold dayOfYear
  rw [dbm_eq_dbmB, dbm_eq_dbmB, ← hy]
  rcases h with h | ⟨he, hd⟩
  · have hstep := dbmB_add_day_le (isLeap d1.year) d1.month (by omega) d1.day (by omega) hm1 hd1
      (by rw [← monthLen_eq_monthLenB]; exact hd2)
    have hmono := dbmB_mono (isLeap d1.year) d2.month (by omega) (d1.month + 1) (by omega)
      (by omega)
    omega
  · rw [he]
    omega

/-- Monotonicity of the rata-die day number over valid dates, with the
date order given lexicographically. -/
theorem rd_mono {d1 d2 : Date} (hv1 : validDate d1 = true) (hv2 : validDate d2 = true)
    (hlex : d1.year < d2.year ∨ (d1.year = d2.year ∧
      (d1.month < d2.month ∨ (d1.month = d2.month ∧ d1.day ≤ d2.day)))) :
    rd d1 ≤ rd d2 := by
  obtain ⟨hy1, -, -, -, -⟩ := (validDate_iff d1).mp hv1
  obtain ⟨hy1', -, -, -, -⟩ := (validDate_iff d2).mp hv2
  rcases hlex with hy | ⟨hy, hmd⟩
  · have hA := dayOfYear_le hv1
    have hB := daysUpTo_succ (d1.year - 1)
    have heq : d1.year - 1 + 1 = d1.year := by omega
    rw [heq] at hB
    have hC : daysUpTo d1.year ≤ daysUpTo (d2.year - 1) := daysUpTo_mono (by omega)
    have hD := dayOfYear_pos hv2
    unfold rd
    omega
  · have := dayOfYear_mono_sameYear hv1 hv2 hy hmd
    unfold rd
    rw [hy]
    omega

/-- A `≤` between encoded valid dates is a lexicographic `≤` between the
dates. -/
theorem enc_le_lex {d1 d2 : Date} (hv1 : validDate d1 = true) (hv2 : validDate d2 = true)
    (h : convert_date_to_int d1 ≤ convert_date_to_int d2) :
    d1.year < d2.year ∨ (d1.year = d2.year ∧
      (d1.month < d2.month ∨ (d1.month = d2.month ∧ d1.day ≤ d2.day))) := by
  obtain ⟨-, hm1, hm2, hd1, -⟩ := (validDate_iff d1).mp hv1
  obtain ⟨-, hm1', hm2', hd1', -⟩ := (validDate_iff d2).mp hv2
  have h31 := day_le_31 hv1
  have h31' := day_le_31 hv2
  have hn : d1.year * 10000 + d1.month * 100 + d1.day ≤
      d2.year * 10000 + d2.month * 100 + d2.day := by
    have := h
    unfold convert_date_to_int at this
    exact_mod_cast this
  omega

theorem validEnc_elim {n : Int} (h : validEnc n = true) :
    validDate (convert_int_to_date n) = true ∧
      convert_date_to_int (convert_int_to_date n) = n := by
  have h' := h
  unfold validEnc at h'
  rw [Bool.and_eq_true, beq_iff_eq] at h'
  exact h'

theorem bucketKey_mono (rule : String) {n1 n2 : Int}
    (h1 : validEnc n1 = true) (h2 : validEnc n2 = true) (h : n1 ≤ n2) :
    bucketKey rule n1 ≤ bucketKey rule n2 := by
  obtain ⟨hv1, he1⟩ := validEnc_elim h1
  obtain ⟨hv2, he2⟩ := validEnc_elim h2
  have hlex := enc_le_lex hv1 hv2 (by rw [he1, he2]; exact h)
  unfold bucketKey
  by_cases hr : rule = "W-Fri"
  · rw [if_pos hr, if_pos hr]
    exact Nat.div_le_div_right (Nat.add_le_add_right (rd_mono hv1 hv2 hlex) 1)
  · rw [if_neg hr, if_neg hr]
    obtain ⟨-, hm1, hm2, -, -⟩ := (validDate_iff _).mp hv1
    obtain ⟨-, hm1', hm2', -, -⟩ := (validDate_iff _).mp hv2
    unfold monthKey
    omega

theorem weekKey_eq_iff (d1 d2 : Date) :
    weekKey d1 = weekKey d2 ↔ fridayOnOrAfter (rd d1) = fridayOnOrAfter (rd d2) := by
  unfold weekKey fridayOnOrAfter
  omega

theorem fridayOnOrAfter_isFriday (n : Nat) : fridayOnOrAfter n % 7 = 5 := by
  unfold fridayOnOrAfter
  omega

theorem fridayOnOrAfter_window (n : Nat) :
    n ≤ fridayOnOrAfter n ∧ fridayOnOrAfter n < n + 7 := by
  unfold fridayOnOrAfter
  omega

theorem monthKey_eq_iff {d1 d2 : Date} (hv1 : validDate d1 = true)
    (hv2 : validDate d2 = true) :
    monthKey d1 = monthKey d2 ↔ (d1.year = d2.year ∧ d1.month = d2.month) := by
  obtain ⟨-, hm1, hm2, -, -⟩ := (validDate_iff d1).mp hv1
  obtain ⟨-, hm1', hm2', -, -⟩ := (validDate_iff d2).mp hv2
  unfold monthKey
  omega

theorem searchsorted_right_le_length (xs : List Int) (v : Int) :
    searchsorted_right xs v ≤ xs.length :=
  length_takeWhile_le' _ _

theorem mem_take_searchsorted_right {xs : List Int} {v : Int} :
    ∀ x ∈ xs.take (searchsorted_right xs v), x ≤ v := by
  intro x hx
  rw [searchsorted_right, ← takeWhile_eq_take_length] at hx
  simpa using mem_takeWhile_pred hx

theorem searchsorted_left_spec {v : Int} {xs : List Int} (hs : List.Sorted (· ≤ ·) xs) :
    v ∈ xs ↔ searchsorted_left xs v < xs.length ∧ xs.getD (searchsorted_left xs v) 0 = v := by
  induction xs with
  | nil => simp [searchsorted_left]
  | cons x xs ih =>
    have hstail := (List.sorted_cons.mp hs).2
    have hhead := (List.sorted_cons.mp hs).1
    by_cases hx : x < v
    · have hpos : searchsorted_left (x :: xs) v = searchsorted_left xs v + 1 := by
        unfold searchsorted_left
        rw [List.takeWhile_cons_of_pos (by simpa using hx), List.length_cons]
      have hxv : x ≠ v := ne_of_lt hx
      rw [hpos]
      simp only [List.length_cons, List.getD_cons_succ, Nat.add_lt_add_iff_right]
      rw [List.mem_cons]
      constructor
      · rintro (h | h)
        · exact absurd h.symm hxv
        · exact (ih hstail).mp h
      · intro h
        exact Or.inr ((ih hstail).mpr h)
    · have hpos : searchsorted_left (x :: xs) v = 0 := by
        unfold searchsorted_left
        rw [List.takeWhile_cons_of_neg (by simpa using hx), List.length_nil]
      rw [hpos]
      simp only [List.getD_cons_zero, List.length_cons]
      constructor
      · intro hm
        refine ⟨Nat.succ_pos _, ?_⟩
        rcases List.mem_cons.mp hm with h | h
        · exact h.symm
        · exact le_antisymm (hhead v h) (not_lt.mp hx)
      · rintro ⟨-, hv⟩
        exact hv ▸ List.mem_cons_self x xs

theorem windowSlice_left_eq (rows : List Row) (bc : Nat) (dti : Int) :
    windowSlice rows bc dti =
      (rows.drop (searchsorted_right (rows.map (fun row => rowGet row "datetime")) dti - bc)).take
        (searchsorted_right (rows.map (fun row => rowGet row "datetime")) dti -
          (searchsorted_right (rows.map (fun row => rowGet row "datetime")) dti - bc)) := by
  simp only [windowSlice]
  by_cases h : bc ≤ searchsorted_right (rows.map (fun row => rowGet row "datetime")) dti
  · rw [if_pos h]
  · rw [if_neg h]
    have h0 : searchsorted_right (rows.map (fun row => rowGet row "datetime")) dti - bc = 0 := by
      omega
    rw [h0]

theorem windowSlice_length_le (rows : List Row) (bc : Nat) (dti : Int) :
    (windowSlice rows bc dti).length ≤ bc ∨ bc = 0 := by
  simp only [windowSlice]
  by_cases h : bc ≤ searchsorted_right (rows.map (fun row => rowGet row "datetime")) dti
  · rw [if_pos h]
    left
    calc ((rows.drop _).take _).length ≤ _ := List.length_take_le _ _
      _ ≤ bc := by omega
  · rw [if_neg h]
    left
    calc ((rows.drop 0).take _).length ≤ _ := List.length_take_le _ _
      _ ≤ bc := by omega

theorem windowSlice_subset_take (rows : List Row) (bc : Nat) (dti : Int) :
    ∀ row ∈ windowSlice rows bc dti,
      row ∈ rows.take (searchsorted_right (rows.map (fun row => rowGet row "datetime")) dti) := by
  intro row hrow
  set i := searchsorted_right (rows.map (fun row => rowGet row "datetime")) dti with hi
  set left := if bc ≤ i then i - bc else 0 with hleft
  have hle : left ≤ i := by
    rw [hleft]
    split <;> omega
  have hsplit : rows.take i = rows.take left ++ (rows.drop left).take (i - left) := by
    have heq : left + (i - left) = i := by omega
    have h2 := List.take_add rows left (i - left)
    rw [heq] at h2
    exact h2
  rw [hsplit]
  exact List.mem_append_right _ hrow

theorem windowSlice_datetime_le (rows : List Row) (bc : Nat) (dti : Int) :
    ∀ row ∈ windowSlice rows bc dti, rowGet row "datetime" ≤ dti := by
  intro row hrow
  have hmem := windowSlice_subset_take rows bc dti row hrow
  have : rowGet row "datetime" ∈
      (rows.map (fun row => rowGet row "datetime")).take
        (searchsorted_right (rows.map (fun row => rowGet row "datetime")) dti) := by
    rw [← List.map_take]
    exact List.mem_map_of_mem _ hmem
  exact mem_take_searchsorted_right _ this

theorem windowSlice_all_of_short (rows : List Row) (bc : Nat) (dti : Int)
    (h : searchsorted_right (rows.map (fun row => rowGet row "datetime")) dti ≤ bc) :
    windowSlice rows bc dti =
      rows.take (searchsorted_right (rows.map (fun row => rowGet row "datetime")) dti) := by
  rw [windowSlice_left_eq]
  have h0 : searchsorted_right (rows.map (fun row => rowGet row "datetime")) dti - bc = 0 := by
    omega
  rw [h0, List.drop_zero, Nat.sub_zero]

theorem datetime_mem_normFds (l : List String) : "datetime" ∈ normFds l := by
  unfold normFds
  by_cases h : "datetime" ∈ l
  · rw [if_pos h]
    exact h
  · rw [if_neg h]
    simp

theorem normFds_sub {l : List String} (h : ∀ f ∈ l, f ∈ schema) :
    ∀ f ∈ normFds l, f ∈ schema := by
  intro f hf
  unfold normFds at hf
  by_cases hd : "datetime" ∈ l
  · rw [if_pos hd] at hf
    exact h f hf
  · rw [if_neg hd] at hf
    rcases List.mem_append.mp hf with hf | hf
    · exact h f hf
    · have hfd : f = "datetime" := by simpa using hf
      rw [hfd]
      simp [schema]

theorem aggField_ok (grp : List BarRecord) {f : String} (hf : f ∈ schema) :
    aggField grp f = .ok (aggVal grp f) := by
  simp only [schema, List.mem_cons, List.mem_singleton] at hf
  rcases hf with rfl | rfl | rfl | rfl | rfl | rfl | rfl | hf
  · rfl
  · rfl
  · rfl
  · rfl
  · rfl
  · rfl
  · rfl
  · simp at hf

theorem resampleAgg_ok (bars : List BarRecord) {fds : List String} (rule : String)
    (hfds : ∀ f ∈ fds, f ∈ schema) :
    resampleAgg bars fds rule =
      .ok ((resampleKeys bars rule).map (fun k => aggRow (bucketOf bars rule k) fds)) := by
  apply mapME_ok_of_forall
  intro k hk
  apply mapME_ok_of_forall
  intro f hf
  rw [aggField_ok _ (hfds f hf)]
  rfl

theorem resample_eval_list (bars : List BarRecord) {l : List String} (rule : String)
    (hsub : ∀ f ∈ l, f ∈ schema) :
    _resample_k_bars bars (.list l) rule =
      .ok ((resampleKeys bars rule).map (fun k => aggRow (bucketOf bars rule k) (normFds l)),
        .list (normFds l)) := by
  show (do
    let rows ← resampleAgg bars (if "datetime" ∈ l then l else l ++ ["datetime"]) rule
    (.ok (rows, Fields.list (if "datetime" ∈ l then l else l ++ ["datetime"])) :
      Except PyError (List Row × Fields))) = _
  rw [show (if "datetime" ∈ l then l else l ++ ["datetime"]) = normFds l from rfl]
  rw [resampleAgg_ok bars rule (normFds_sub hsub)]
  rfl

theorem resample_eval_str (bars : List BarRecord) {s : String} (rule : String)
    (hs : s ∈ schema) :
    _resample_k_bars bars (.str s) rule =
      .ok ((resampleKeys bars rule).map (fun k => aggRow (bucketOf bars rule k) (normFds [s])),
        .str s) := by
  have heq : (if s = "datetime" then [s] else [s, "datetime"]) = normFds [s] := by
    unfold normFds
    by_cases h : s = "datetime"
    · rw [if_pos h, if_pos (by simp [h])]
    · rw [if_neg h, if_neg (by simpa using fun hc => h hc.symm)]
      rfl
  show (do
    let rows ← resampleAgg bars (if s = "datetime" then [s] else [s, "datetime"]) rule
    (.ok (rows, Fields.str s) : Except PyError (List Row × Fields))) = _
  rw [heq, resampleAgg_ok bars rule (normFds_sub (by simpa using hs))]
  rfl

theorem resample_eval_all (bars : List BarRecord) (rule : String) :
    _resample_k_bars bars .all rule = .error .TypeError := rfl

theorem resampleKeys_sorted (bars : List BarRecord) (rule : String) :
    List.Sorted (· ≤ ·) (resampleKeys bars rule) :=
  List.sorted_insertionSort _ _

theorem resampleKeys_nodup (bars : List BarRecord) (rule : String) :
    (resampleKeys bars rule).Nodup :=
  ((List.perm_insertionSort _ _).symm).nodup (List.nodup_dedup _)

theorem mem_resampleKeys {bars : List BarRecord} {rule : String} {k : Nat} :
    k ∈ resampleKeys bars rule ↔ ∃ r ∈ bars, bucketKey rule r.datetime = k := by
  unfold resampleKeys
  rw [(List.perm_insertionSort _ _).mem_iff, List.mem_dedup, List.mem_map]

theorem resampleKeys_pairwise_lt (bars : List BarRecord) (rule : String) :
    (resampleKeys bars rule).Pairwise (· < ·) :=
  ((resampleKeys_sorted bars rule).and (resampleKeys_nodup bars rule)).imp
    (fun h => lt_of_le_of_ne h.1 h.2)

theorem resampleKeys_ne_nil {bars : List BarRecord} {rule : String} (h : bars ≠ []) :
    resampleKeys bars rule ≠ [] := by
  rcases bars with _ | ⟨r, rs⟩
  · exact absurd rfl h
  · exact List.ne_nil_of_mem
      (mem_resampleKeys.mpr ⟨r, List.mem_cons_self r rs, rfl⟩)

theorem mem_bucketOf {bars : List BarRecord} {rule : String} {k : Nat} {r : BarRecord} :
    r ∈ bucketOf bars rule k ↔ r ∈ bars ∧ bucketKey rule r.datetime = k := by
  simp [bucketOf, List.mem_filter]

theorem bucketOf_ne_nil {bars : List BarRecord} {rule : String} {k : Nat}
    (h : k ∈ resampleKeys bars rule) : bucketOf bars rule k ≠ [] := by
  obtain ⟨r, hr, hk⟩ := mem_resampleKeys.mp h
  exact List.ne_nil_of_mem (mem_bucketOf.mpr ⟨hr, hk⟩)

theorem aggVal_datetime {grp : List BarRecord} (h : grp ≠ []) :
    aggVal grp "datetime" = (grp.getLastD dummyBar).datetime := by
  show applyAgg .last (grp.map (fun r => r.get "datetime")) = _
  show (grp.map (fun r => r.get "datetime")).getLastD 0 = _
  exact getLastD_map _ grp 0 dummyBar h

theorem aggVal_open {grp : List BarRecord} (h : grp ≠ []) :
    aggVal grp "open" = (grp.headD dummyBar).«open» := by
  show applyAgg .first (grp.map (fun r => r.get "open")) = _
  show (grp.map (fun r => r.get "open")).headD 0 = _
  exact headD_map _ grp 0 dummyBar h

theorem aggVal_close {grp : List BarRecord} (h : grp ≠ []) :
    aggVal grp "close" = (grp.getLastD dummyBar).close := by
  show applyAgg .last (grp.map (fun r => r.get "close")) = _
  show (grp.map (fun r => r.get "close")).getLastD 0 = _
  exact getLastD_map _ grp 0 dummyBar h

theorem aggVal_high {grp : List BarRecord} (h : grp ≠ []) :
    aggVal grp "high" ∈ grp.map (fun r => r.high) ∧
      ∀ v ∈ grp.map (fun r => r.high), v ≤ aggVal grp "high" := by
  rcases grp with _ | ⟨r, rs⟩
  · exact absurd rfl h
  · have hspec := foldl_max_spec r.high (rs.map (fun r => r.high))
    have hval : aggVal (r :: rs) "high" = (rs.map (fun r => r.high)).foldl Max.max r.high := rfl
    rw [hval]
    refine ⟨?_, ?_⟩
    · rcases hspec.1 with hh | hh
      · rw [hh]
        simp
      · simp only [List.map_cons, List.mem_cons]
        exact Or.inr hh
    · intro v hv
      rcases List.mem_cons.mp hv with hv | hv
      · rw [hv]
        exact hspec.2.1
      · exact hspec.2.2 v hv

theorem aggVal_low {grp : List BarRecord} (h : grp ≠ []) :
    aggVal grp "low" ∈ grp.map (fun r => r.low) ∧
      ∀ v ∈ grp.map (fun r => r.low), aggVal grp "low" ≤ v := by
  rcases grp with _ | ⟨r, rs⟩
  · exact absurd rfl h
  · have hspec := foldl_min_spec r.low (rs.map (fun r => r.low))
    have hval : aggVal (r :: rs) "low" = (rs.map (fun r => r.low)).foldl Min.min r.low := rfl
    rw [hval]
    refine ⟨?_, ?_⟩
    · rcases hspec.1 with hh | hh
      · rw [hh]
        simp
      · simp only [List.map_cons, List.mem_cons]
        exact Or.inr hh
    · intro v hv
      rcases List.mem_cons.mp hv with hv | hv
      · rw [hv]
        exact hspec.2.1
      · exact hspec.2.2 v hv

theorem aggVal_volume (grp : List BarRecord) :
    aggVal grp "volume" = (grp.map (fun r => r.volume)).sum := by
  show (grp.map (fun r => r.get "volume")).foldl (· + ·) 0 = _
  rw [foldl_add_eq_sum, zero_add]
  rfl

theorem aggVal_total_turnover (grp : List BarRecord) :
    aggVal grp "total_turnover" = (grp.map (fun r => r.total_turnover)).sum := by
  show (grp.map (fun r => r.get "total_turnover")).foldl (· + ·) 0 = _
  rw [foldl_add_eq_sum, zero_add]
  rfl

theorem rowGet_aggRow {grp : List BarRecord} {fds : List String} {f : String}
    (h : f ∈ fds) : rowGet (aggRow grp fds) f = aggVal grp f :=
  rowGet_mk h

theorem history_bars_sel_some {ds : BaseDataSource} {inst : Instrument} {bc : Nat}
    {freq : String} {fields : Fields} {dt : Date} {skip : Bool} {bars : List BarRecord}
    (hfreq : freq ∈ (["1d", "W", "M"] : List String))
    (hsel : (if skip ∧ inst.type = "CS" then _filtered_day_bars ds inst
             else _all_day_bars_of ds inst) = .ok (some bars)) :
    history_bars ds inst bc freq fields dt skip = barsPipeline bars bc freq fields dt := by
  unfold history_bars
  rw [if_neg (not_not_intro hfreq)]
  by_cases hc : skip = true ∧ inst.type = "CS"
  · rw [if_pos hc] at hsel
    rw [if_pos hc, hsel]
    rfl
  · rw [if_neg hc] at hsel
    rw [if_neg hc, hsel]
    rfl

theorem history_bars_sel_none {ds : BaseDataSource} {inst : Instrument} {bc : Nat}
    {freq : String} {fields : Fields} {dt : Date} {skip : Bool}
    (hfreq : freq ∈ (["1d", "W", "M"] : List String))
    (hsel : (if skip ∧ inst.type = "CS" then _filtered_day_bars ds inst
             else _all_day_bars_of ds inst) = .ok none) :
    history_bars ds inst bc freq fields dt skip = .ok (none, fields) := by
  unfold history_bars
  rw [if_neg (not_not_intro hfreq)]
  by_cases hc : skip = true ∧ inst.type = "CS"
  · rw [if_pos hc] at hsel
    rw [if_pos hc, hsel]
    rfl
  · rw [if_neg hc] at hsel
    rw [if_neg hc, hsel]
    rfl

theorem barsPipeline_invalid {bars : List BarRecord} {bc : Nat} {freq : String}
    {fields : Fields} {dt : Date} (hv : _are_fields_valid fields schema = false) :
    barsPipeline bars bc freq fields dt = .ok (none, fields) := by
  unfold barsPipeline
  rw [if_pos (by simp [hv])]

theorem barsPipeline_eval {bars : List BarRecord} {bc : Nat} {freq : String}
    {fields : Fields} {dt : Date} {rows : List Row} {fieldsAfter : Fields}
    (hv : _are_fields_valid fields schema = true)
    (hres : (if freq = "W" then _resample_k_bars bars fields "W-Fri"
             else if freq = "M" then _resample_k_bars bars fields "M"
             else .ok (bars.map BarRecord.toRow, fields)) = .ok (rows, fieldsAfter)) :
    barsPipeline bars bc freq fields dt =
      .ok (some (projectRows (windowSlice rows bc (convert_date_to_int dt)) fieldsAfter),
        fieldsAfter) := by
  unfold barsPipeline
  rw [if_neg (by simp [hv])]
  by_cases hw : freq = "W"
  · rw [if_pos hw] at hres
    rw [if_pos hw, hres]
    rfl
  · rw [if_neg hw] at hres
    by_cases hm : freq = "M"
    · rw [if_pos hm] at hres
      rw [if_neg hw, if_pos hm, hres]
      rfl
    · rw [if_neg hm] at hres
      rw [if_neg hw, if_neg hm, hres]
      rfl

theorem barsPipeline_resample_err {bars : List BarRecord} {bc : Nat} {freq : String}
    {fields : Fields} {dt : Date} {e : PyError}
    (hv : _are_fields_valid fields schema = true)
    (hres : (if freq = "W" then _resample_k_bars bars fields "W-Fri"
             else if freq = "M" then _resample_k_bars bars fields "M"
             else .ok (bars.map BarRecord.toRow, fields)) = .error e) :
    barsPipeline bars bc freq fields dt = .error e := by
  unfold barsPipeline
  rw [if_neg (by simp [hv])]
  by_cases hw : freq = "W"
  · rw [if_pos hw] at hres
    rw [if_pos hw, hres]
    rfl
  · rw [if_neg hw] at hres
    by_cases hm : freq = "M"
    · rw [if_pos hm] at hres
      rw [if_neg hw, if_pos hm, hres]
      rfl
    · rw [if_neg hm] at hres
      rw [if_neg hw, if_neg hm, hres]
      rfl

theorem get_bar_freq_err {ds : BaseDataSource} {inst : Instrument} {dt : Date}
    {freq : String} (h : freq ≠ "1d") :
    get_bar ds inst dt freq = .error .NotImplementedError := by
  unfold get_bar
  rw [if_pos h]

theorem get_bar_series_none {ds : BaseDataSource} {inst : Instrument} {dt : Date}
    (h : _all_day_bars_of ds inst = .ok none) :
    get_bar ds inst dt "1d" = .ok none := by
  unfold get_bar
  rw [if_neg (by simp), h]
  rfl

theorem get_bar_series_some {ds : BaseDataSource} {inst : Instrument} {dt : Date}
    {bars : List BarRecord} (h : _all_day_bars_of ds inst = .ok (some bars)) :
    get_bar ds inst dt "1d" =
      (if hlt : searchsorted_left (bars.map (fun r => r.datetime)) (convert_date_to_int dt) <
          bars.length then
        if (bars.get ⟨_, hlt⟩).datetime ≠ convert_date_to_int dt then .ok none
        else .ok (some (bars.get ⟨_, hlt⟩))
      else .ok none) := by
  unfold get_bar
  rw [if_neg (by simp), h]
  rfl

/-- Calendar anchor: 2018-01-05 was a Friday (day number `≡ 5 (mod 7)`). -/
theorem rd_friday_anchor : rd ⟨2018, 1, 5⟩ % 7 = 5 := by decide

/-- Calendar anchor: the rata-die epoch 0001-01-01 is day 1 (a Monday). -/
theorem rd_epoch : rd ⟨1, 1, 1⟩ = 1 := by decide

/-- C4: for every instrument, the filtered series is exactly the
subsequence of the full series whose records have `volume > 0`, order
preserved (a sublist), and an Absent full series filters to Absent. -/
theorem C4_filtered_subsequence (ds : BaseDataSource) (inst : Instrument) :
    (_all_day_bars_of ds inst = .ok none → _filtered_day_bars ds inst = .ok none) ∧
    (∀ bars, _all_day_bars_of ds inst = .ok (some bars) →
      _filtered_day_bars ds inst = .ok (some (bars.filter (fun r => decide (0 < r.volume)))) ∧
      (bars.filter (fun r => decide (0 < r.volume))).Sublist bars ∧
      (∀ r, r ∈ bars.filter (fun r => decide (0 < r.volume)) ↔ r ∈ bars ∧ 0 < r.volume)) := by
  constructor
  · intro h
    unfold _filtered_day_bars
    rw [h]
    rfl
  · intro bars h
    refine ⟨?_, List.filter_sublist _, ?_⟩
    · unfold _filtered_day_bars
      rw [h]
      rfl
    · intro r
      rw [List.mem_filter]
      simp

theorem C4_witness :
    _all_day_bars_of sampleDS sampleInst = .ok (some exBars) ∧
      (_filtered_day_bars sampleDS sampleInst =
        .ok (some (exBars.filter (fun r => decide (0 < r.volume)))) ∧
      (exBars.filter (fun r => decide (0 < r.volume))).Sublist exBars ∧
      (∀ r, r ∈ exBars.filter (fun r => decide (0 < r.volume)) ↔ r ∈ exBars ∧ 0 < r.volume)) :=
  ⟨by decide, (C4_filtered_subsequence sampleDS sampleInst).2 exBars (by decide)⟩

/-- C6: `get_bar` fails with the unsupported-frequency error for every
frequency other than `"1d"`, and `history_bars` for every frequency
outside `{"1d", "W", "M"}`, in both cases regardless of every other
argument (in particular before any series is read). -/
theorem C6_unsupported_frequency (ds : BaseDataSource) (inst : Instrument) (dt : Date)
    (bc : Nat) (fields : Fields) (skip : Bool) (freq : String) :
    (freq ≠ "1d" → get_bar ds inst dt freq = .error .NotImplementedError) ∧
    (freq ∉ (["1d", "W", "M"] : List String) →
      history_bars ds inst bc freq fields dt skip = .error .NotImplementedError) := by
  constructor
  · exact get_bar_freq_err
  · intro h
    unfold history_bars
    rw [if_pos h]

theorem C6_witness :
    (("W" : String) ≠ "1d" ∧
      get_bar sampleDS sampleInst ⟨2018, 1, 3⟩ "W" = .error .NotImplementedError) ∧
    (("5m" : String) ∉ (["1d", "W", "M"] : List String) ∧
      history_bars sampleDS sampleInst 3 "5m" .all ⟨2018, 1, 3⟩ true =
        .error .NotImplementedError) :=
  ⟨⟨by decide,
    (C6_unsupported_frequency sampleDS sampleInst ⟨2018, 1, 3⟩ 3 .all true "W").1 (by decide)⟩,
   ⟨by decide,
    (C6_unsupported_frequency sampleDS sampleInst ⟨2018, 1, 3⟩ 3 .all true "5m").2 (by decide)⟩⟩

/-- C7: `history_bars` uses the volume-filtered series exactly when
`skip_suspended` holds and the instrument's class is `"CS"`, the full
series otherwise, and an Absent selected series short-circuits the call
to an Absent result. -/
theorem C7_series_selection (ds : BaseDataSource) (inst : Instrument) (bc : Nat)
    (freq : String) (fields : Fields) (dt : Date) (skip : Bool)
    (hfreq : freq ∈ (["1d", "W", "M"] : List String)) :
    (skip = true → inst.type = "CS" →
      (_filtered_day_bars ds inst = .ok none →
        history_bars ds inst bc freq fields dt skip = .ok (none, fields)) ∧
      (∀ bars, _filtered_day_bars ds inst = .ok (some bars) →
        history_bars ds inst bc freq fields dt skip = barsPipeline bars bc freq fields dt)) ∧
    (¬ (skip = true ∧ inst.type = "CS") →
      (_all_day_bars_of ds inst = .ok none →
        history_bars ds inst bc freq fields dt skip = .ok (none, fields)) ∧
      (∀ bars, _all_day_bars_of ds inst = .ok (some bars) →
        history_bars ds inst bc freq fields dt skip = barsPipeline bars bc freq fields dt)) := by
  constructor
  · intro h1 h2
    constructor
    · intro hn
      exact history_bars_sel_none hfreq (by rw [if_pos ⟨h1, h2⟩]; exact hn)
    · intro bars hs
      exact history_bars_sel_some hfreq (by rw [if_pos ⟨h1, h2⟩]; exact hs)
  · intro hc
    constructor
    · intro hn
      exact history_bars_sel_none hfreq (by rw [if_neg hc]; exact hn)
    · intro bars hs
      exact history_bars_sel_some hfreq (by rw [if_neg hc]; exact hs)

theorem C7_witness :
    (("1d" : String) ∈ (["1d", "W", "M"] : List String)) ∧
    ((true = true → sampleInst.type = "CS" →
      (_filtered_day_bars sampleDS sampleInst = .ok none →
        history_bars sampleDS sampleInst 2 "1d" .all ⟨2018, 1, 3⟩ true = .ok (none, .all)) ∧
      (∀ bars, _filtered_day_bars sampleDS sampleInst = .ok (some bars) →
        history_bars sampleDS sampleInst 2 "1d" .all ⟨2018, 1, 3⟩ true =
          barsPipeline bars 2 "1d" .all ⟨2018, 1, 3⟩)) ∧
    (¬ (true = true ∧ sampleInst.type = "CS") →
      (_all_day_bars_of sampleDS sampleInst = .ok none →
        history_bars sampleDS sampleInst 2 "1d" .all ⟨2018, 1, 3⟩ true = .ok (none, .all)) ∧
      (∀ bars, _all_day_bars_of sampleDS sampleInst = .ok (some bars) →
        history_bars sampleDS sampleInst 2 "1d" .all ⟨2018, 1, 3⟩ true =
          barsPipeline bars 2 "1d" .all ⟨2018, 1, 3⟩))) :=
  ⟨by decide, C7_series_selection sampleDS sampleInst 2 "1d" .all ⟨2018, 1, 3⟩ true (by decide)⟩

/-- Indexing a mapped list with `getD` below its length. -/
theorem getD_map_lt {α β : Type} (f : α → β) (l : List α) (j : Nat) (d : β) (d0 : α)
    (h : j < l.length) : (l.map f).getD j d = f (l.getD j d0) := by
  rw [List.getD_eq_getElem?_getD, List.getElem?_map, List.getElem?_eq_getElem h]
  show f l[j] = f (l.getD j d0)
  rw [List.getD_eq_getElem?_getD, List.getElem?_eq_getElem h]
  rfl

/-- `getD` below the length is `get`. -/
theorem getD_eq_get {α : Type} (l : List α) (d : α) {j : Nat} (h : j < l.length) :
    l.getD j d = l.get ⟨j, h⟩ := by
  rw [List.getD_eq_getElem?_getD, List.getElem?_eq_getElem h]
  rfl

/-- C5: with a present series, daily `get_bar` returns the record whose
`datetime` is the encoded date exactly when one exists and Absent
otherwise; with no series at all the result is Absent, never an error. -/
theorem C5_get_bar_exact (ds : BaseDataSource) (inst : Instrument) (dt : Date) :
    (_all_day_bars_of ds inst = .ok none → get_bar ds inst dt "1d" = .ok none) ∧
    (∀ bars, _all_day_bars_of ds inst = .ok (some bars) →
      List.Sorted (· ≤ ·) (bars.map (fun r => r.datetime)) →
      ((∃ r ∈ bars, r.datetime = convert_date_to_int dt) →
        ∃ r, get_bar ds inst dt "1d" = .ok (some r) ∧ r ∈ bars ∧
          r.datetime = convert_date_to_int dt) ∧
      ((¬ ∃ r ∈ bars, r.datetime = convert_date_to_int dt) →
        get_bar ds inst dt "1d" = .ok none)) := by
  constructor
  · exact get_bar_series_none
  · intro bars hb hs
    rw [get_bar_series_some hb]
    have hspec := @searchsorted_left_spec (convert_date_to_int dt) _ hs
    constructor
    · intro hex
      have hmem : convert_date_to_int dt ∈ bars.map (fun r => r.datetime) := by
        obtain ⟨r, hr, he⟩ := hex
        exact List.mem_map.mpr ⟨r, hr, he⟩
      obtain ⟨hlt, hget⟩ := hspec.mp hmem
      have hlen : searchsorted_left (bars.map (fun r => r.datetime)) (convert_date_to_int dt) <
          bars.length := by
        rw [List.length_map] at hlt
        exact hlt
      have hdt : (bars.get ⟨_, hlen⟩).datetime = convert_date_to_int dt := by
        have h1 := getD_map_lt (fun r => r.datetime) bars
          (searchsorted_left (bars.map (fun r => r.datetime)) (convert_date_to_int dt))
          0 dummyBar hlen
        have h2 := getD_eq_get bars dummyBar hlen
        rw [← h2]
        exact h1.symm.trans hget
      refine ⟨bars.get ⟨_, hlen⟩, ?_, List.get_mem bars _ hlen, hdt⟩
      rw [dif_pos hlen, if_neg (not_not_intro hdt)]
    · intro hnex
      have hmem : convert_date_to_int dt ∉ bars.map (fun r => r.datetime) := by
        intro hc
        obtain ⟨r, hr, he⟩ := List.mem_map.mp hc
        exact hnex ⟨r, hr, he⟩
      by_cases hlt : searchsorted_left (bars.map (fun r => r.datetime))
          (convert_date_to_int dt) < bars.length
      · rw [dif_pos hlt]
        have hne : (bars.get ⟨_, hlt⟩).datetime ≠ convert_date_to_int dt := by
          intro he
          apply hmem
          apply hspec.mpr
          refine ⟨by rw [List.length_map]; exact hlt, ?_⟩
          have h1 := getD_map_lt (fun r => r.datetime) bars
            (searchsorted_left (bars.map (fun r => r.datetime)) (convert_date_to_int dt))
            0 dummyBar hlt
          have h2 := getD_eq_get bars dummyBar hlt
          rw [h1, h2]
          exact he
        rw [if_pos hne]
      · rw [dif_neg hlt]

theorem C5_witness :
    (_all_day_bars_of sampleDS sampleInst = .ok (some exBars) ∧
      List.Sorted (· ≤ ·) (exBars.map (fun r => r.datetime)) ∧
      (∃ r ∈ exBars, r.datetime = convert_date_to_int ⟨2018, 1, 3⟩)) ∧
    ((∃ r ∈ exBars, r.datetime = convert_date_to_int ⟨2018, 1, 3⟩) →
      ∃ r, get_bar sampleDS sampleInst ⟨2018, 1, 3⟩ "1d" = .ok (some r) ∧ r ∈ exBars ∧
        r.datetime = convert_date_to_int ⟨2018, 1, 3⟩) ∧
    ((¬ ∃ r ∈ exBars, r.datetime = convert_date_to_int ⟨2018, 1, 3⟩) →
      get_bar sampleDS sampleInst ⟨2018, 1, 3⟩ "1d" = .ok none) :=
  ⟨⟨by decide, by decide, by decide⟩,
    (C5_get_bar_exact sampleDS sampleInst ⟨2018, 1, 3⟩).2 exBars (by decide) (by decide)⟩

/-- C8: a field request naming any field outside the schema makes
`history_bars` return Absent (not a crash), while the "all fields"
request, any schema field name, and any list of schema fields pass
validation. -/
theorem C8_invalid_fields (ds : BaseDataSource) (inst : Instrument) (bc : Nat)
    (freq : String) (fields : Fields) (dt : Date) (skip : Bool)
    (hfreq : freq ∈ (["1d", "W", "M"] : List String)) :
    (∀ l f0 b?, fieldNames fields = some l → f0 ∈ l → f0 ∉ schema →
      (if skip ∧ inst.type = "CS" then _filtered_day_bars ds inst
       else _all_day_bars_of ds inst) = .ok b? →
      history_bars ds inst bc freq fields dt skip = .ok (none, fields)) ∧
    _are_fields_valid .all schema = true ∧
    (∀ s, s ∈ schema → _are_fields_valid (.str s) schema = true) ∧
    (∀ l, (∀ f ∈ l, f ∈ schema) → _are_fields_valid (.list l) schema = true) := by
  refine ⟨?_, rfl, ?_, ?_⟩
  · intro l f0 b? hl hf0 hns hsel
    have hinvalid : _are_fields_valid fields schema = false := by
      cases fields with
      | all => simp [fieldNames] at hl
      | str s =>
        have hls : l = [s] := by
          simpa [fieldNames] using hl.symm
        rw [hls] at hf0
        have : f0 = s := by simpa using hf0
        rw [this] at hns
        show decide (s ∈ schema) = false
        exact decide_eq_false hns
      | list l' =>
        have hll : l = l' := by
          simpa [fieldNames] using hl.symm
        rw [hll] at hf0
        show l'.all (fun f => decide (f ∈ schema)) = false
        cases hall : l'.all (fun f => decide (f ∈ schema)) with
        | false => rfl
        | true =>
          exact absurd (of_decide_eq_true (List.all_eq_true.mp hall f0 hf0)) hns
    cases b? with
    | none => exact history_bars_sel_none hfreq hsel
    | some bars =>
      rw [history_bars_sel_some hfreq hsel]
      exact barsPipeline_invalid hinvalid
  · intro s hs
    exact decide_eq_true hs
  · intro l hl
    rw [show _are_fields_valid (.list l) schema = l.all (fun f => decide (f ∈ schema)) from rfl,
      List.all_eq_true]
    intro f hf
    exact decide_eq_true (hl f hf)

theorem C8_witness :
    ((("1d" : String) ∈ (["1d", "W", "M"] : List String)) ∧
      fieldNames (.list ["nonexistent_field"]) = some ["nonexistent_field"] ∧
      ("nonexistent_field" ∈ (["nonexistent_field"] : List String)) ∧
      ("nonexistent_field" ∉ schema) ∧
      ((if true ∧ sampleInst.type = "CS" then _filtered_day_bars sampleDS sampleInst
        else _all_day_bars_of sampleDS sampleInst) = .ok (some exBars))) ∧
    history_bars sampleDS sampleInst 2 "1d" (.list ["nonexistent_field"]) ⟨2018, 1, 3⟩ true =
      .ok (none, .list ["nonexistent_field"]) ∧
    _are_fields_valid .all schema = true ∧
    _are_fields_valid (.str "close") schema = true ∧
    _are_fields_valid (.list ["open", "close"]) schema = true :=
  ⟨⟨by decide, by decide, by decide, by decide, by decide⟩,
    (C8_invalid_fields sampleDS sampleInst 2 "1d" (.list ["nonexistent_field"]) ⟨2018, 1, 3⟩ true
      (by decide)).1 ["nonexistent_field"] "nonexistent_field" (some exBars) rfl (by decide)
      (by decide) (by decide),
    (C8_invalid_fields sampleDS sampleInst 2 "1d" (.list ["nonexistent_field"]) ⟨2018, 1, 3⟩ true
      (by decide)).2.1,
    (C8_invalid_fields sampleDS sampleInst 2 "1d" (.list ["nonexistent_field"]) ⟨2018, 1, 3⟩ true
      (by decide)).2.2.1 "close" (by decide),
    (C8_invalid_fields sampleDS sampleInst 2 "1d" (.list ["nonexistent_field"]) ⟨2018, 1, 3⟩ true
      (by decide)).2.2.2 ["open", "close"] (by decide)⟩

/-- C9: with a present selected series, a Weekly or Monthly
`history_bars` call with `fields = None` raises (the field normalization
evaluates a membership test on `None`), instead of returning the
resampled full-schema series. -/
theorem C9_all_fields_resample_raises (ds : BaseDataSource) (inst : Instrument) (bc : Nat)
    (dt : Date) (skip : Bool) (bars : List BarRecord)
    (hsel : (if skip ∧ inst.type = "CS" then _filtered_day_bars ds inst
             else _all_day_bars_of ds inst) = .ok (some bars)) :
    history_bars ds inst bc "W" .all dt skip = .error .TypeError ∧
    history_bars ds inst bc "M" .all dt skip = .error .TypeError := by
  constructor
  · rw [history_bars_sel_some (by decide) hsel]
    exact barsPipeline_resample_err rfl (by rw [if_pos rfl]; rfl)
  · rw [history_bars_sel_some (by decide) hsel]
    exact barsPipeline_resample_err rfl (by rw [if_neg (by decide), if_pos rfl]; rfl)

theorem C9_witness :
    ((if true ∧ sampleInst.type = "CS" then _filtered_day_bars sampleDS sampleInst
      else _all_day_bars_of sampleDS sampleInst) = .ok (some exBars)) ∧
    history_bars sampleDS sampleInst 2 "W" .all ⟨2018, 1, 31⟩ true = .error .TypeError ∧
    history_bars sampleDS sampleInst 2 "M" .all ⟨2018, 1, 31⟩ true = .error .TypeError :=
  ⟨by decide,
    (C9_all_fields_resample_raises sampleDS sampleInst 2 ⟨2018, 1, 31⟩ true exBars (by decide)).1,
    (C9_all_fields_resample_raises sampleDS sampleInst 2 ⟨2018, 1, 31⟩ true exBars (by decide)).2⟩

theorem fields_valid_str {s : String} (hs : s ∈ schema) :
    _are_fields_valid (.str s) schema = true :=
  decide_eq_true hs

theorem fields_valid_list {l : List String} (hsub : ∀ f ∈ l, f ∈ schema) :
    _are_fields_valid (.list l) schema = true := by
  rw [show _are_fields_valid (.list l) schema = l.all (fun f => decide (f ∈ schema)) from rfl,
    List.all_eq_true]
  intro f hf
  exact decide_eq_true (hsub f hf)

theorem normFds_no_datetime {l : List String} (hnd : "datetime" ∉ l) :
    normFds l = l ++ ["datetime"] := by
  unfold normFds
  rw [if_neg hnd]

/-- C10: a Weekly or Monthly `history_bars` call with a field list not
containing `"datetime"` mutates the caller's list in place (after the
call the list has `"datetime"` appended), while a Daily call or a
single-string field request leaves the `fields` argument unchanged. -/
theorem C10_fields_mutation (ds : BaseDataSource) (inst : Instrument) (bc : Nat)
    (dt : Date) (skip : Bool) (bars : List BarRecord) (l : List String)
    (hsel : (if skip ∧ inst.type = "CS" then _filtered_day_bars ds inst
             else _all_day_bars_of ds inst) = .ok (some bars))
    (hsub : ∀ f ∈ l, f ∈ schema) (hnd : "datetime" ∉ l) :
    (∃ w, history_bars ds inst bc "W" (.list l) dt skip = .ok (w, .list (l ++ ["datetime"]))) ∧
    (∃ w, history_bars ds inst bc "M" (.list l) dt skip = .ok (w, .list (l ++ ["datetime"]))) ∧
    (∀ fields b, history_bars ds inst bc "1d" fields dt skip = .ok b → b.2 = fields) ∧
    (∀ s, s ∈ schema →
      ∃ w, history_bars ds inst bc "W" (.str s) dt skip = .ok (w, .str s)) := by
  refine ⟨?_, ?_, ?_, ?_⟩
  · rw [history_bars_sel_some (by decide) hsel]
    rw [barsPipeline_eval (fields_valid_list hsub)
      (by rw [if_pos rfl]; exact resample_eval_list bars "W-Fri" hsub)]
    rw [normFds_no_datetime hnd]
    exact ⟨_, rfl⟩
  · rw [history_bars_sel_some (by decide) hsel]
    rw [barsPipeline_eval (fields_valid_list hsub)
      (by rw [if_neg (by decide), if_pos rfl]; exact resample_eval_list bars "M" hsub)]
    rw [normFds_no_datetime hnd]
    exact ⟨_, rfl⟩
  · intro fields b hb
    rw [history_bars_sel_some (by decide) hsel] at hb
    by_cases hv : _are_fields_valid fields schema = true
    · rw [barsPipeline_eval hv (by rw [if_neg (by decide), if_neg (by decide)])] at hb
      have := (Except.ok.injEq _ _).mp hb.symm
      rw [this]
    · rw [barsPipeline_invalid (Bool.eq_false_iff.mpr hv)] at hb
      have := (Except.ok.injEq _ _).mp hb.symm
      rw [this]
  · intro s hs
    rw [history_bars_sel_some (by decide) hsel]
    rw [barsPipeline_eval (fields_valid_str hs)
      (by rw [if_pos rfl]; exact resample_eval_str bars "W-Fri" hs)]
    exact ⟨_, rfl⟩

theorem C10_witness :
    ((if true ∧ sampleInst.type = "CS" then _filtered_day_bars sampleDS sampleInst
      else _all_day_bars_of sampleDS sampleInst) = .ok (some exBars)) ∧
    (∀ f ∈ (["close"] : List String), f ∈ schema) ∧ ("datetime" ∉ (["close"] : List String)) ∧
    ((∃ w, history_bars sampleDS sampleInst 5 "W" (.list ["close"]) ⟨2018, 1, 31⟩ true =
        .ok (w, .list (["close"] ++ ["datetime"]))) ∧
    (∃ w, history_bars sampleDS sampleInst 5 "M" (.list ["close"]) ⟨2018, 1, 31⟩ true =
        .ok (w, .list (["close"] ++ ["datetime"]))) ∧
    (∀ fields b, history_bars sampleDS sampleInst 5 "1d" fields ⟨2018, 1, 31⟩ true = .ok b →
      b.2 = fields) ∧
    (∀ s, s ∈ schema →
      ∃ w, history_bars sampleDS sampleInst 5 "W" (.str s) ⟨2018, 1, 31⟩ true =
        .ok (w, .str s))) :=
  ⟨by decide, by decide, by decide,
    C10_fields_mutation sampleDS sampleInst 5 ⟨2018, 1, 31⟩ true exBars ["close"]
      (by decide) (by decide) (by decide)⟩

/-- C3 (amended): for Weekly/Monthly calls, `datetime` is always added to
the aggregation field set; for a single-string request it is then
stripped by the final projection, so the records hold exactly the
requested field; for a list request the caller's list itself has been
mutated to include `datetime`, so the returned records hold the
requested fields plus `datetime`. -/
theorem C3_datetime_projection (ds : BaseDataSource) (inst : Instrument) (bc : Nat)
    (dt : Date) (skip : Bool) (bars : List BarRecord) (freq : String)
    (hfreq : freq = "W" ∨ freq = "M")
    (hsel : (if skip ∧ inst.type = "CS" then _filtered_day_bars ds inst
             else _all_day_bars_of ds inst) = .ok (some bars)) :
    (∀ s, s ∈ schema → s ≠ "datetime" →
      ∃ rows, history_bars ds inst bc freq (.str s) dt skip = .ok (some rows, .str s) ∧
        ∀ row ∈ rows, row.map Prod.fst = [s]) ∧
    (∀ l, (∀ f ∈ l, f ∈ schema) → "datetime" ∉ l →
      ∃ rows, history_bars ds inst bc freq (.list l) dt skip =
        .ok (some rows, .list (l ++ ["datetime"])) ∧
        ∀ row ∈ rows, row.map Prod.fst = l ++ ["datetime"]) := by
  have hfm : freq ∈ (["1d", "W", "M"] : List String) := by
    rcases hfreq with h | h <;> rw [h] <;> decide
  have hrule : (if freq = "W" then ("W-Fri" : String) else "M") = "W-Fri" ∨
      (if freq = "W" then ("W-Fri" : String) else "M") = "M" := by
    by_cases h : freq = "W"
    · rw [if_pos h]
      left
      rfl
    · rw [if_neg h]
      right
      rfl
  constructor
  · intro s hs hsd
    have hres : (if freq = "W" then _resample_k_bars bars (.str s) "W-Fri"
        else if freq = "M" then _resample_k_bars bars (.str s) "M"
        else .ok (bars.map BarRecord.toRow, .str s)) =
        .ok ((resampleKeys bars (if freq = "W" then "W-Fri" else "M")).map
          (fun k => aggRow (bucketOf bars (if freq = "W" then "W-Fri" else "M") k)
            (normFds [s])), .str s) := by
      rcases hfreq with h | h
      · rw [h]
        rw [if_pos rfl, if_pos rfl]
        exact resample_eval_str bars "W-Fri" hs
      · rw [h]
        rw [show (if ("M" : String) = "W" then ("W-Fri" : String) else "M") = "M" from by decide]
        rw [if_neg (show ¬ ("M" : String) = "W" by decide), if_pos rfl]
        exact resample_eval_str bars "M" hs
    rw [history_bars_sel_some hfm hsel, barsPipeline_eval (fields_valid_str hs) hres]
    refine ⟨_, rfl, ?_⟩
    intro row hrow
    obtain ⟨row0, -, hr0⟩ := List.mem_map.mp hrow
    rw [← hr0]
    exact map_fst_mk [s] _
  · intro l hsub hnd
    have hres : (if freq = "W" then _resample_k_bars bars (.list l) "W-Fri"
        else if freq = "M" then _resample_k_bars bars (.list l) "M"
        else .ok (bars.map BarRecord.toRow, .list l)) =
        .ok ((resampleKeys bars (if freq = "W" then "W-Fri" else "M")).map
          (fun k => aggRow (bucketOf bars (if freq = "W" then "W-Fri" else "M") k)
            (normFds l)), .list (normFds l)) := by
      rcases hfreq with h | h
      · rw [h]
        rw [if_pos rfl, if_pos rfl]
        exact resample_eval_list bars "W-Fri" hsub
      · rw [h]
        rw [show (if ("M" : String) = "W" then ("W-Fri" : String) else "M") = "M" from by decide]
        rw [if_neg (show ¬ ("M" : String) = "W" by decide), if_pos rfl]
        exact resample_eval_list bars "M" hsub
    rw [history_bars_sel_some hfm hsel, barsPipeline_eval (fields_valid_list hsub) hres]
    rw [normFds_no_datetime hnd]
    refine ⟨_, rfl, ?_⟩
    intro row hrow
    obtain ⟨row0, -, hr0⟩ := List.mem_map.mp hrow
    rw [← hr0]
    exact map_fst_mk (l ++ ["datetime"]) _

theorem C3_counterexample :
    rowsFieldLists
        (history_bars sampleDS sampleInst 5 "W" (.list ["close"]) ⟨2018, 1, 31⟩ false) =
      some [["close", "datetime"]] ∧
    (["close", "datetime"] : List String) ≠ ["close"] := by
  constructor
  · decide
  · decide

theorem C3_witness :
    ((("W" : String) = "W" ∨ ("W" : String) = "M") ∧
      (if true ∧ sampleInst.type = "CS" then _filtered_day_bars sampleDS sampleInst
       else _all_day_bars_of sampleDS sampleInst) = .ok (some exBars)) ∧
    ((∀ s, s ∈ schema → s ≠ "datetime" →
      ∃ rows, history_bars sampleDS sampleInst 5 "W" (.str s) ⟨2018, 1, 31⟩ true =
        .ok (some rows, .str s) ∧ ∀ row ∈ rows, row.map Prod.fst = [s]) ∧
    (∀ l, (∀ f ∈ l, f ∈ schema) → "datetime" ∉ l →
      ∃ rows, history_bars sampleDS sampleInst 5 "W" (.list l) ⟨2018, 1, 31⟩ true =
        .ok (some rows, .list (l ++ ["datetime"])) ∧
        ∀ row ∈ rows, row.map Prod.fst = l ++ ["datetime"])) :=
  ⟨⟨by decide, by decide⟩,
    C3_datetime_projection sampleDS sampleInst 5 ⟨2018, 1, 31⟩ true exBars "W"
      (by decide) (by decide)⟩

theorem map_datetime_toRow (bars : List BarRecord) :
    (bars.map BarRecord.toRow).map (fun row => rowGet row "datetime") =
      bars.map (fun r => r.datetime) := by
  rw [List.map_map]
  rfl

/-- C1: for a present (ascending) selected series and `bar_count > 0`,
daily `history_bars` returns exactly the records at positions
`[max(0, i - bar_count), i)` for the right-inclusive boundary `i` of the
encoded as-of date; the window never holds more than `bar_count`
records, each returned record's `datetime` is `≤` the encoded as-of
date, and when fewer than `bar_count` records precede `i` the window is
all records from position 0 (no error, no padding). -/
theorem C1_history_window (ds : BaseDataSource) (inst : Instrument) (bc : Nat) (dt : Date)
    (skip : Bool) (bars : List BarRecord)
    (hsel : (if skip ∧ inst.type = "CS" then _filtered_day_bars ds inst
             else _all_day_bars_of ds inst) = .ok (some bars))
    (hbc : 0 < bc)
    (hsorted : List.Sorted (· ≤ ·) (bars.map (fun r => r.datetime))) :
    history_bars ds inst bc "1d" .all dt skip =
      .ok (some (windowSlice (bars.map BarRecord.toRow) bc (convert_date_to_int dt)), .all) ∧
    windowSlice (bars.map BarRecord.toRow) bc (convert_date_to_int dt) =
      ((bars.map BarRecord.toRow).drop
          (searchsorted_right (bars.map (fun r => r.datetime)) (convert_date_to_int dt) -
            bc)).take
        (searchsorted_right (bars.map (fun r => r.datetime)) (convert_date_to_int dt) -
          (searchsorted_right (bars.map (fun r => r.datetime)) (convert_date_to_int dt) - bc)) ∧
    (windowSlice (bars.map BarRecord.toRow) bc (convert_date_to_int dt)).length ≤ bc ∧
    (∀ row ∈ windowSlice (bars.map BarRecord.toRow) bc (convert_date_to_int dt),
      rowGet row "datetime" ≤ convert_date_to_int dt) ∧
    (searchsorted_right (bars.map (fun r => r.datetime)) (convert_date_to_int dt) ≤ bc →
      windowSlice (bars.map BarRecord.toRow) bc (convert_date_to_int dt) =
        (bars.map BarRecord.toRow).take
          (searchsorted_right (bars.map (fun r => r.datetime)) (convert_date_to_int dt))) := by
  refine ⟨?_, ?_, ?_, ?_, ?_⟩
  · rw [history_bars_sel_some (by decide) hsel,
      barsPipeline_eval (rfl : _are_fields_valid .all schema = true)
        (by rw [if_neg (by decide), if_neg (by decide)])]
    rfl
  · have h := windowSlice_left_eq (bars.map BarRecord.toRow) bc (convert_date_to_int dt)
    rw [map_datetime_toRow] at h
    exact h
  · rcases windowSlice_length_le (bars.map BarRecord.toRow) bc (convert_date_to_int dt) with
      h | h
    · exact h
    · omega
  · exact windowSlice_datetime_le (bars.map BarRecord.toRow) bc (convert_date_to_int dt)
  · intro hshort
    have h := windowSlice_all_of_short (bars.map BarRecord.toRow) bc (convert_date_to_int dt)
      (by rw [map_datetime_toRow]; exact hshort)
    rw [map_datetime_toRow] at h
    exact h

theorem C1_witness :
    ((if true ∧ sampleInst.type = "CS" then _filtered_day_bars sampleDS sampleInst
      else _all_day_bars_of sampleDS sampleInst) = .ok (some exBars)) ∧
    0 < 2 ∧
    List.Sorted (· ≤ ·) (exBars.map (fun r => r.datetime)) ∧
    (history_bars sampleDS sampleInst 2 "1d" .all ⟨2018, 1, 3⟩ true =
      .ok (some (windowSlice (exBars.map BarRecord.toRow) 2 (convert_date_to_int ⟨2018, 1, 3⟩)),
        .all) ∧
    windowSlice (exBars.map BarRecord.toRow) 2 (convert_date_to_int ⟨2018, 1, 3⟩) =
      ((exBars.map BarRecord.toRow).drop
          (searchsorted_right (exBars.map (fun r => r.datetime))
            (convert_date_to_int ⟨2018, 1, 3⟩) - 2)).take
        (searchsorted_right (exBars.map (fun r => r.datetime))
            (convert_date_to_int ⟨2018, 1, 3⟩) -
          (searchsorted_right (exBars.map (fun r => r.datetime))
              (convert_date_to_int ⟨2018, 1, 3⟩) - 2)) ∧
    (windowSlice (exBars.map BarRecord.toRow) 2 (convert_date_to_int ⟨2018, 1, 3⟩)).length ≤ 2 ∧
    (∀ row ∈ windowSlice (exBars.map BarRecord.toRow) 2 (convert_date_to_int ⟨2018, 1, 3⟩),
      rowGet row "datetime" ≤ convert_date_to_int ⟨2018, 1, 3⟩) ∧
    (searchsorted_right (exBars.map (fun r => r.datetime))
        (convert_date_to_int ⟨2018, 1, 3⟩) ≤ 2 →
      windowSlice (exBars.map BarRecord.toRow) 2 (convert_date_to_int ⟨2018, 1, 3⟩) =
        (exBars.map BarRecord.toRow).take
          (searchsorted_right (exBars.map (fun r => r.datetime))
            (convert_date_to_int ⟨2018, 1, 3⟩)))) :=
  ⟨by decide, by decide, by decide,
    C1_history_window sampleDS sampleInst 2 ⟨2018, 1, 3⟩ true exBars
      (by decide) (by decide) (by decide)⟩

theorem getLastD_mem {α : Type} (l : List α) (d : α) (h : l ≠ []) : l.getLastD d ∈ l := by
  induction l generalizing d with
  | nil => exact absurd rfl h
  | cons x xs ih =>
    rcases xs with _ | ⟨y, ys⟩
    · simp [List.getLastD_cons]
    · rw [List.getLastD_cons]
      exact List.mem_cons_of_mem x (ih x (by simp))

theorem headD_mem {α : Type} (l : List α) (d : α) (h : l ≠ []) : l.headD d ∈ l := by
  cases l with
  | nil => exact absurd rfl h
  | cons x xs => exact List.mem_cons_self x xs

/-- C2: weekly/monthly resampling groups the daily bars into calendar
bins (Friday-anchored weeks for `"W-Fri"`, calendar months for `"M"`),
aggregates each non-empty bin per the fixed per-field rules, drops empty
bins entirely (every output row has a non-empty bucket, and the bins are
exactly those of the input bars), and the output stays ascending by the
integer-encoded date. -/
theorem C2_resample_aggregation (bars : List BarRecord) (fields : Fields) (l : List String)
    (rule : String)
    (hne : bars ≠ [])
    (hrule : rule = "W-Fri" ∨ rule = "M")
    (hl : fieldNames fields = some l)
    (hsub : ∀ f ∈ l, f ∈ schema)
    (hvalid : ∀ r ∈ bars, validEnc r.datetime = true)
    (hsorted : List.Sorted (· ≤ ·) (bars.map (fun r => r.datetime))) :
    ∃ rows fieldsAfter, _resample_k_bars bars fields rule = .ok (rows, fieldsAfter) ∧
      rows ≠ [] ∧
      rows.length = (resampleKeys bars rule).length ∧
      List.Sorted (· ≤ ·) (rows.map (fun row => rowGet row "datetime")) ∧
      (∀ k, k ∈ resampleKeys bars rule ↔ ∃ r ∈ bars, bucketKey rule r.datetime = k) ∧
      (∀ j, j < rows.length →
        bucketOf bars rule ((resampleKeys bars rule).getD j 0) ≠ [] ∧
        (∀ r, r ∈ bucketOf bars rule ((resampleKeys bars rule).getD j 0) ↔
          r ∈ bars ∧ bucketKey rule r.datetime = (resampleKeys bars rule).getD j 0) ∧
        bucketAggOk (bucketOf bars rule ((resampleKeys bars rule).getD j 0)) (normFds l)
          (rows.getD j [])) ∧
      (rule = "W-Fri" → ∀ r1 ∈ bars, ∀ r2 ∈ bars,
        (bucketKey rule r1.datetime = bucketKey rule r2.datetime ↔
          fridayOnOrAfter (rd (convert_int_to_date r1.datetime)) =
            fridayOnOrAfter (rd (convert_int_to_date r2.datetime)))) ∧
      (rule = "M" → ∀ r1 ∈ bars, ∀ r2 ∈ bars,
        (bucketKey rule r1.datetime = bucketKey rule r2.datetime ↔
          ((convert_int_to_date r1.datetime).year = (convert_int_to_date r2.datetime).year ∧
            (convert_int_to_date r1.datetime).month =
              (convert_int_to_date r2.datetime).month))) := by
  have hrun : ∃ fieldsAfter, _resample_k_bars bars fields rule =
      .ok ((resampleKeys bars rule).map (fun k => aggRow (bucketOf bars rule k) (normFds l)),
        fieldsAfter) := by
    cases fields with
    | all => simp [fieldNames] at hl
    | str s =>
      have hls : l = [s] := by simpa [fieldNames] using hl.symm
      refine ⟨.str s, ?_⟩
      rw [hls]
      exact resample_eval_str bars rule (hsub s (by rw [hls]; exact List.mem_singleton_self s))
    | list l' =>
      have hll : l = l' := by simpa [fieldNames] using hl.symm
      refine ⟨.list (normFds l'), ?_⟩
      rw [hll]
      exact resample_eval_list bars rule (by rw [← hll]; exact hsub)
  obtain ⟨fieldsAfter, hrun⟩ := hrun
  refine ⟨_, fieldsAfter, hrun, ?_, List.length_map _ _, ?_, fun k => mem_resampleKeys,
    ?_, ?_, ?_⟩
  · intro hnil
    exact @resampleKeys_ne_nil bars rule hne (List.map_eq_nil_iff.mp hnil)
  · rw [List.map_map]
    have hcongr : ∀ k ∈ resampleKeys bars rule,
        ((fun row => rowGet row "datetime") ∘
          (fun k => aggRow (bucketOf bars rule k) (normFds l))) k =
          (fun k => ((bucketOf bars rule k).getLastD dummyBar).datetime) k := by
      intro k hk
      show rowGet (aggRow (bucketOf bars rule k) (normFds l)) "datetime" = _
      rw [rowGet_aggRow (datetime_mem_normFds l), aggVal_datetime (bucketOf_ne_nil hk)]
    rw [List.map_congr_left hcongr]
    rw [List.Sorted, List.pairwise_map]
    apply List.Pairwise.imp_of_mem ?_ (resampleKeys_pairwise_lt bars rule)
    intro k1 k2 h1 h2 hlt
    by_contra hgt
    push_neg at hgt
    have hm1 := getLastD_mem _ dummyBar (bucketOf_ne_nil h1)
    have hm2 := getLastD_mem _ dummyBar (bucketOf_ne_nil h2)
    obtain ⟨hb1, hk1⟩ := mem_bucketOf.mp hm1
    obtain ⟨hb2, hk2⟩ := mem_bucketOf.mp hm2
    have hmono := bucketKey_mono rule (hvalid _ hb2) (hvalid _ hb1) (le_of_lt hgt)
    rw [hk1, hk2] at hmono
    omega
  · intro j hj
    have hjk : j < (resampleKeys bars rule).length := by
      rw [List.length_map] at hj
      exact hj
    have hkmem : (resampleKeys bars rule).getD j 0 ∈ resampleKeys bars rule := by
      rw [getD_eq_get _ 0 hjk]
      exact List.get_mem _ _ hjk
    have hBne := bucketOf_ne_nil hkmem
    have hrowj : ((resampleKeys bars rule).map
        (fun k => aggRow (bucketOf bars rule k) (normFds l))).getD j [] =
        aggRow (bucketOf bars rule ((resampleKeys bars rule).getD j 0)) (normFds l) :=
      getD_map_lt _ _ j [] 0 hjk
    refine ⟨hBne, fun r => mem_bucketOf, ?_⟩
    rw [hrowj]
    refine ⟨?_, ?_, ?_, ?_, ?_, ?_, ?_⟩
    · intro hf
      rw [rowGet_aggRow hf]
      exact aggVal_datetime hBne
    · intro hf
      rw [rowGet_aggRow hf]
      exact aggVal_open hBne
    · intro hf
      rw [rowGet_aggRow hf]
      exact aggVal_close hBne
    · intro hf
      rw [rowGet_aggRow hf]
      exact aggVal_high hBne
    · intro hf
      rw [rowGet_aggRow hf]
      exact aggVal_low hBne
    · intro hf
      rw [rowGet_aggRow hf]
      exact aggVal_volume _
    · intro hf
      rw [rowGet_aggRow hf]
      exact aggVal_total_turnover _
  · intro hr r1 h1 r2 h2
    obtain ⟨hv1, -⟩ := validEnc_elim (hvalid r1 h1)
    obtain ⟨hv2, -⟩ := validEnc_elim (hvalid r2 h2)
    rw [hr]
    have hbk : ∀ n : Int, bucketKey "W-Fri" n = weekKey (convert_int_to_date n) := by
      intro n
      unfold bucketKey
      rw [if_pos rfl]
    rw [hbk, hbk]
    exact weekKey_eq_iff _ _
  · intro hr r1 h1 r2 h2
    obtain ⟨hv1, -⟩ := validEnc_elim (hvalid r1 h1)
    obtain ⟨hv2, -⟩ := validEnc_elim (hvalid r2 h2)
    rw [hr]
    have hbk : ∀ n : Int, bucketKey "M" n = monthKey (convert_int_to_date n) := by
      intro n
      unfold bucketKey
      rw [if_neg (by decide)]
    rw [hbk, hbk]
    exact monthKey_eq_iff hv1 hv2

theorem C2_witness :
    (exBars ≠ [] ∧
      (("W-Fri" : String) = "W-Fri" ∨ ("W-Fri" : String) = "M") ∧
      fieldNames (.list ["open", "high", "low", "close", "volume"]) =
        some ["open", "high", "low", "close", "volume"] ∧
      (∀ f ∈ (["open", "high", "low", "close", "volume"] : List String), f ∈ schema) ∧
      (∀ r ∈ exBars, validEnc r.datetime = true) ∧
      List.Sorted (· ≤ ·) (exBars.map (fun r => r.datetime))) ∧
    (∃ rows fieldsAfter,
      _resample_k_bars exBars (.list ["open", "high", "low", "close", "volume"]) "W-Fri" =
        .ok (rows, fieldsAfter) ∧
      rows ≠ [] ∧
      rows.length = (resampleKeys exBars "W-Fri").length ∧
      List.Sorted (· ≤ ·) (rows.map (fun row => rowGet row "datetime")) ∧
      (∀ k, k ∈ resampleKeys exBars "W-Fri" ↔
        ∃ r ∈ exBars, bucketKey "W-Fri" r.datetime = k) ∧
      (∀ j, j < rows.length →
        bucketOf exBars "W-Fri" ((resampleKeys exBars "W-Fri").getD j 0) ≠ [] ∧
        (∀ r, r ∈ bucketOf exBars "W-Fri" ((resampleKeys exBars "W-Fri").getD j 0) ↔
          r ∈ exBars ∧ bucketKey "W-Fri" r.datetime = (resampleKeys exBars "W-Fri").getD j 0) ∧
        bucketAggOk (bucketOf exBars "W-Fri" ((resampleKeys exBars "W-Fri").getD j 0))
          (normFds ["open", "high", "low", "close", "volume"]) (rows.getD j [])) ∧
      (("W-Fri" : String) = "W-Fri" → ∀ r1 ∈ exBars, ∀ r2 ∈ exBars,
        (bucketKey "W-Fri" r1.datetime = bucketKey "W-Fri" r2.datetime ↔
          fridayOnOrAfter (rd (convert_int_to_date r1.datetime)) =
            fridayOnOrAfter (rd (convert_int_to_date r2.datetime)))) ∧
      (("W-Fri" : String) = "M" → ∀ r1 ∈ exBars, ∀ r2 ∈ exBars,
        (bucketKey "W-Fri" r1.datetime = bucketKey "W-Fri" r2.datetime ↔
          ((convert_int_to_date r1.datetime).year = (convert_int_to_date r2.datetime).year ∧
            (convert_int_to_date r1.datetime).month =
              (convert_int_to_date r2.datetime).month)))) :=
  ⟨⟨by decide, by decide, rfl, by decide, by decide, by decide⟩,
    C2_resample_aggregation exBars (.list ["open", "high", "low", "close", "volume"])
      ["open", "high", "low", "close", "volume"] "W-Fri"
      (by decide) (by decide) rfl (by decide) (by decide) (by decide)⟩
